import Mathlib

set_option maxRecDepth 20000

/-!
# Verification of the AI-Book-Generator generation/orchestration core

A shallow embedding, in Lean 4, of the generation-orchestration and
API-resilience core of the AI-Book-Generator web application
(`js/api.js`, `js/script.js`, `js/config.js`, `js/storage.js`).

Modelling conventions:
* JavaScript strings are Lean `String`s; all character-level processing is
  done on `String.data : List Char`.  `String.prototype.substring` works on
  UTF-16 code units; we model it with `List.take` on characters, which
  agrees on the BMP text the application manipulates.
* Asynchronous control flow (`async`/`await`) is sequentialised: every
  network call is abstracted as an oracle argument, and `sleep` calls are
  recorded as a list of waited durations (in milliseconds) instead of
  actually waiting.
* DOM / UI side effects (`showAlert`, `setLoadingText`, progress bars,
  live-writer echoes) are advisory per the design and are either dropped or
  recorded as data (e.g. the error alert emitted by `generateChapters`).
* `JSON.parse` is modelled by a small strict JSON parser covering the value
  forms the streaming frames use (objects, arrays, strings with the common
  escapes, integer numbers, booleans, null).  Inputs outside this fragment
  (e.g. fractional numbers) are treated as unparseable; none of the
  statements below depend on such inputs.
-/

/-! ## Character and string helpers mirroring the JavaScript primitives -/

/-- JavaScript `\s` (the whitespace characters relevant to this code base:
the ASCII whitespace class; the exotic Unicode space classes never appear in
the strings the application processes). -/
def isJsWs (c : Char) : Bool :=
  c == ' ' || c == '\t' || c == '\n' || c == '\r' || c == '\x0b' || c == '\x0c'

/-- JSON whitespace (`JSON.parse` accepts only space, tab, LF, CR). -/
def isJsonWs (c : Char) : Bool :=
  c == ' ' || c == '\t' || c == '\n' || c == '\r'

/-- JavaScript `\d`. -/
def isAsciiDigit (c : Char) : Bool :=
  '0' ≤ c && c ≤ '9'

/-- `String.prototype.trim` on character lists. -/
def jsTrimList (cs : List Char) : List Char :=
  ((cs.dropWhile isJsWs).reverse.dropWhile isJsWs).reverse

/-- `String.prototype.trim`. -/
def jsTrim (s : String) : String :=
  ⟨jsTrimList s.data⟩

/-- `String.prototype.toLowerCase` (ASCII; sufficient for the literals the
code compares against). -/
def jsToLowerList (cs : List Char) : List Char :=
  cs.map Char.toLower

/-- `String.prototype.includes needle` on character lists (`hay` is the
second argument so the recursion is on it). -/
def listIncludes (needle : List Char) : List Char → Bool
  | [] => needle.isPrefixOf ([] : List Char)
  | c :: t => needle.isPrefixOf (c :: t) || listIncludes needle t

/-- `hay.includes(needle)`. -/
def strIncludes (hay needle : String) : Bool :=
  listIncludes needle.data hay.data

/-- `String.prototype.split('\n')` on character lists. -/
def splitNlList : List Char → List (List Char)
  | [] => [[]]
  | c :: t =>
    if c == '\n' then [] :: splitNlList t
    else
      match splitNlList t with
      | [] => [[c]]
      | h :: r => (c :: h) :: r

/-- `String.prototype.split('\n')`. -/
def jsSplitNl (s : String) : List String :=
  (splitNlList s.data).map (fun cs => (⟨cs⟩ : String))

/-- `Array.prototype.join(sep)`. -/
def jsJoin (sep : String) : List String → String
  | [] => ""
  | [x] => x
  | x :: y :: t => x ++ sep ++ jsJoin sep (y :: t)

theorem dropWhile_length_le (p : α → Bool) (t : List α) :
    (t.dropWhile p).length ≤ t.length := by
  induction t with
  | nil => simp [List.dropWhile]
  | cons c t ih =>
    by_cases h : p c
    · simp only [List.dropWhile_cons_of_pos, h, List.length_cons]; omega
    · simp [List.dropWhile_cons_of_neg, h]

/-- JavaScript `String(text).split(/\s+/).filter(w => w.length > 0).length`:
the number of maximal non-whitespace runs, counted by a scan that tracks
whether the previous character was inside a word. -/
def countWordsAux : List Char → Bool → Nat
  | [], _ => 0
  | c :: t, inWord =>
    if isJsWs c then countWordsAux t false
    else (if inWord then 0 else 1) + countWordsAux t true

/-- Word count of a character list. -/
def countWordsList (cs : List Char) : Nat :=
  countWordsAux cs false

/-- `countWords` from `script.js` (whitespace-delimited word count). -/
def countWords (s : String) : Nat :=
  countWordsList s.data

/-! ## `api.js`: error classification (`handleAPIError`) -/

/-- `APIManager.handleAPIError`: the message of the `Error` thrown for each
non-success HTTP status.  `retryAfter` is the `retry-after` header (default
`"60"`); `upstreamMsg` is `errorData.error?.message` when present. -/
def handleAPIError (status : Nat) (retryAfter : Option String)
    (upstreamMsg : Option String) : String :=
  if status == 401 then
    "Invalid API key. Please check your OpenAI API key."
  else if status == 429 then
    "Rate limit exceeded. Please wait " ++ retryAfter.getD "60" ++
      " seconds before trying again."
  else if status == 500 || status == 502 || status == 503 then
    "OpenAI service temporarily unavailable. Please try again later."
  else
    upstreamMsg.getD ("API request failed with status " ++ toString status)

/-! ## `api.js`: retry orchestration (`generateWithRetry`) -/

/-- The classification used by `generateWithRetry`:
`String(error?.message || '').toLowerCase().includes('rate limit')`. -/
def isRateLimitError (msg : String) : Bool :=
  listIncludes "rate limit".data (jsToLowerList msg.data)

deriving instance DecidableEq for Except

/-- Observable trace of one `generateWithRetry` run: its outcome, the number
of times the wrapped function was invoked, and the waits performed between
attempts (milliseconds, in order). -/
structure RetryTrace (α : Type) where
  result : Except String α
  calls : Nat
  waits : List Nat
deriving DecidableEq

/-- The attempt loop of `APIManager.generateWithRetry`.  `fn attempt` is the
outcome of the `attempt`-th call of the wrapped function (`Except.error msg`
models a thrown `Error` with message `msg`).  `fuel` counts the remaining
loop iterations (`maxRetries - attempt + 1`); the `fuel = 0` base case
corresponds to the loop exiting with `throw lastError`, which is reachable
only when `maxRetries < 1`. -/
def retryGo (fn : Nat → Except String α) (maxRetries : Nat) :
    Nat → Nat → RetryTrace α
  | _, 0 => { result := .error "", calls := 0, waits := [] }
  | attempt, fuel + 1 =>
    match fn attempt with
    | .ok a => { result := .ok a, calls := 1, waits := [] }
    | .error msg =>
      if isRateLimitError msg = true ∧ attempt < maxRetries then
        let r := retryGo fn maxRetries (attempt + 1) fuel
        { result := r.result, calls := r.calls + 1,
          waits := 2 ^ attempt * 1000 :: r.waits }
      else if attempt == maxRetries then
        { result := .error msg, calls := 1, waits := [] }
      else
        let r := retryGo fn maxRetries (attempt + 1) fuel
        { result := r.result, calls := r.calls + 1,
          waits := 1000 * attempt :: r.waits }

/-- `APIManager.generateWithRetry(fn, maxRetries)`: attempts run from 1. -/
def generateWithRetry (fn : Nat → Except String α) (maxRetries : Nat) :
    RetryTrace α :=
  retryGo fn maxRetries 1 maxRetries

/-- `CONFIG.GENERATION.maxRetries` (`config.js`). -/
def CONFIG_maxRetries : Nat := 3

/-- A function that fails identically on every attempt. -/
def alwaysError (msg : String) : Nat → Except String String :=
  fun _ => .error msg

theorem retryGo_alwaysError_succ (msg : String) (m attempt fuel : Nat) :
    retryGo (alwaysError msg) m attempt (fuel + 1) =
      if isRateLimitError msg = true ∧ attempt < m then
        { result := (retryGo (alwaysError msg) m (attempt + 1) fuel).result,
          calls := (retryGo (alwaysError msg) m (attempt + 1) fuel).calls + 1,
          waits := 2 ^ attempt * 1000 ::
            (retryGo (alwaysError msg) m (attempt + 1) fuel).waits }
      else if attempt == m then
        { result := .error msg, calls := 1, waits := [] }
      else
        { result := (retryGo (alwaysError msg) m (attempt + 1) fuel).result,
          calls := (retryGo (alwaysError msg) m (attempt + 1) fuel).calls + 1,
          waits := 1000 * attempt ::
            (retryGo (alwaysError msg) m (attempt + 1) fuel).waits } := rfl

theorem retryGo_alwaysError_rateLimited (msg : String)
    (hmsg : isRateLimitError msg = true) (m : Nat) :
    ∀ fuel attempt, attempt + fuel = m + 1 → 1 ≤ fuel →
      retryGo (alwaysError msg) m attempt fuel =
        { result := .error msg, calls := fuel,
          waits := (List.range (fuel - 1)).map
            (fun k => 2 ^ (attempt + k) * 1000) } := by
  intro fuel
  induction fuel with
  | zero => intro attempt _ h; omega
  | succ f ih =>
    intro attempt hsum _
    rw [retryGo_alwaysError_succ]
    cases f with
    | zero =>
      have ha : attempt = m := by omega
      rw [if_neg (by omega), if_pos (by simp [ha])]
      simp
    | succ f' =>
      have hlt : attempt < m := by omega
      rw [if_pos ⟨hmsg, hlt⟩, ih (attempt + 1) (by omega) (by omega)]
      have hw : (List.range (f' + 1 + 1 - 1)).map
            (fun k => 2 ^ (attempt + k) * 1000) =
          2 ^ attempt * 1000 :: (List.range (f' + 1 - 1)).map
            (fun k => 2 ^ (attempt + 1 + k) * 1000) := by
        simp only [Nat.add_sub_cancel, Nat.succ_sub_one]
        rw [List.range_succ_eq_map]
        simp only [List.map_cons, Nat.add_zero, List.map_map]
        congr 1
        apply List.map_congr_left
        intro k _
        simp only [Function.comp_apply]
        congr 2
        omega
      rw [hw]

theorem retryGo_alwaysError_other (msg : String)
    (hmsg : isRateLimitError msg = false) (m : Nat) :
    ∀ fuel attempt, attempt + fuel = m + 1 → 1 ≤ fuel →
      retryGo (alwaysError msg) m attempt fuel =
        { result := .error msg, calls := fuel,
          waits := (List.range (fuel - 1)).map
            (fun k => 1000 * (attempt + k)) } := by
  intro fuel
  induction fuel with
  | zero => intro attempt _ h; omega
  | succ f ih =>
    intro attempt hsum _
    rw [retryGo_alwaysError_succ]
    rw [if_neg (by simp [hmsg])]
    cases f with
    | zero =>
      have ha : attempt = m := by omega
      rw [if_pos (by simp [ha])]
      simp
    | succ f' =>
      have hne : attempt ≠ m := by omega
      rw [if_neg (by simpa using hne), ih (attempt + 1) (by omega) (by omega)]
      have hw : (List.range (f' + 1 + 1 - 1)).map
            (fun k => 1000 * (attempt + k)) =
          1000 * attempt :: (List.range (f' + 1 - 1)).map
            (fun k => 1000 * (attempt + 1 + k)) := by
        simp only [Nat.add_sub_cancel, Nat.succ_sub_one]
        rw [List.range_succ_eq_map]
        simp only [List.map_cons, Nat.add_zero, List.map_map]
        congr 1
        apply List.map_congr_left
        intro k _
        simp only [Function.comp_apply]
        congr 1
        omega
      rw [hw]

/-- **C5.** For every `maxRetries ≥ 1` and every function that fails with a
rate-limit-classified error on every call, `generateWithRetry` invokes the
function exactly `maxRetries` times, re-raises the final error unchanged,
and its waits are exactly `2^attempt · 1000 ms` for each non-final attempt
`attempt = 1 .. maxRetries - 1` (so the total waited time is the sum of
`2^k` time units over `k = 1 .. maxRetries - 1`). -/
theorem generateWithRetry_always_rateLimited (m : Nat) (msg : String)
    (hm : 1 ≤ m) (hmsg : isRateLimitError msg = true) :
    generateWithRetry (alwaysError msg) m =
      { result := .error msg, calls := m,
        waits := (List.range (m - 1)).map (fun k => 2 ^ (k + 1) * 1000) } := by
  unfold generateWithRetry
  rw [retryGo_alwaysError_rateLimited msg hmsg m m 1 (by omega) (by omega)]
  have hw : (List.range (m - 1)).map (fun k => 2 ^ (1 + k) * 1000) =
      (List.range (m - 1)).map (fun k => 2 ^ (k + 1) * 1000) := by
    apply List.map_congr_left
    intro k _
    congr 2
    omega
  rw [hw]

/-- Witness for C5 at `maxRetries = 3` with the concrete 429 message. -/
theorem generateWithRetry_always_rateLimited_witness :
    generateWithRetry (alwaysError (handleAPIError 429 none none))
        CONFIG_maxRetries =
      { result := .error (handleAPIError 429 none none), calls := 3,
        waits := [2000, 4000] } :=
  (generateWithRetry_always_rateLimited 3 (handleAPIError 429 none none)
    (by decide) (by decide)).trans (by decide)

/-- **C1, counterexample.**  The claim says every error whose kind is neither
`RateLimited` nor `ServiceUnavailable` (e.g. the `InvalidCredential` message
thrown for HTTP 401) propagates immediately on its first occurrence, with no
further attempts.  In fact `generateWithRetry` retries it: with the default
`maxRetries = 3` and a function that always throws the 401 message, the
function is invoked 3 times (not 1), with linear waits of 1000 ms and
2000 ms between the attempts. -/
theorem generateWithRetry_invalidKey_retries :
    (generateWithRetry (alwaysError (handleAPIError 401 none none))
        CONFIG_maxRetries).calls = 3 ∧
    (generateWithRetry (alwaysError (handleAPIError 401 none none))
        CONFIG_maxRetries).waits = [1000, 2000] ∧
    ¬ (generateWithRetry (alwaysError (handleAPIError 401 none none))
        CONFIG_maxRetries).calls = 1 := by
  decide

/-- **C1 (amended).**  `generateWithRetry` retries *every* error kind, not
only rate limits: for every `maxRetries ≥ 1` and every function that always
fails with a non-rate-limit message (this includes the `InvalidCredential`
and `Other` kinds as well as `ServiceUnavailable`), the function is invoked
exactly `maxRetries` times, with a linear wait of `attempt · 1000 ms` after
each non-final attempt, and the error propagates only after the final
attempt. -/
theorem generateWithRetry_always_other (m : Nat) (msg : String)
    (hm : 1 ≤ m) (hmsg : isRateLimitError msg = false) :
    generateWithRetry (alwaysError msg) m =
      { result := .error msg, calls := m,
        waits := (List.range (m - 1)).map (fun k => 1000 * (k + 1)) } := by
  unfold generateWithRetry
  rw [retryGo_alwaysError_other msg hmsg m m 1 (by omega) (by omega)]
  have hw : (List.range (m - 1)).map (fun k => 1000 * (1 + k)) =
      (List.range (m - 1)).map (fun k => 1000 * (k + 1)) := by
    apply List.map_congr_left
    intro k _
    congr 1
    omega
  rw [hw]

/-- Witness for the amended C1 at `maxRetries = 3` with the concrete
`ServiceUnavailable` (503) message. -/
theorem generateWithRetry_always_other_witness :
    generateWithRetry (alwaysError (handleAPIError 503 none none))
        CONFIG_maxRetries =
      { result := .error (handleAPIError 503 none none), calls := 3,
        waits := [1000, 2000] } :=
  (generateWithRetry_always_other 3 (handleAPIError 503 none none)
    (by decide) (by decide)).trans (by decide)

/-! ## `api.js`: ChatStyle request construction (`makeChatRequest`,
`streamChatRequest`) and the keys of the serialized payload

The request object literal in `makeChatRequest` lists
`model, messages, temperature, max_tokens, presence_penalty,
frequency_penalty, top_p, stream`, conditionally spreads
`{ seed }` (omitted, since `CONFIG.GENERATION.seed` is `undefined` in
`config.js`), and finally spreads `options.additionalParams || {}`.
`options.response_format` is deliberately never forwarded.
`JSON.stringify` drops keys whose value is `undefined`, so the keys of the
*serialized* payload are the always-defined base keys, the optional
sampling keys when the caller supplied them, and the keys of
`additionalParams`. -/

/-- The options record accepted by `makeChatRequest` / `streamChatRequest`
(field values are irrelevant to the claims below; only definedness and the
keys of `additionalParams` matter, so defined values are represented by
`Option`/key lists). -/
structure ChatRequestOptions where
  model : Option String
  temperature : Option Nat
  maxTokens : Option Nat
  presencePenalty : Option Int
  frequencyPenalty : Option Int
  topP : Option Nat
  responseFormat : Option String
  additionalParams : List String
deriving DecidableEq

/-- Keys of `JSON.stringify`-serialized body built by
`APIManager.makeChatRequest`. -/
def makeChatRequestKeys (opts : ChatRequestOptions) : List String :=
  ["model", "messages", "temperature", "max_tokens"]
    ++ (match opts.presencePenalty with
        | some _ => ["presence_penalty"]
        | none => [])
    ++ (match opts.frequencyPenalty with
        | some _ => ["frequency_penalty"]
        | none => [])
    ++ (match opts.topP with
        | some _ => ["top_p"]
        | none => [])
    ++ ["stream"]
    ++ opts.additionalParams

/-- Keys of the serialized body built by `APIManager.streamChatRequest`
(`model, messages, temperature, max_tokens, stream: true`, optional seed
spread — omitted since `CONFIG.GENERATION.seed` is `undefined` — then
`additionalParams`). -/
def streamChatRequestKeys (opts : ChatRequestOptions) : List String :=
  ["model", "messages", "temperature", "max_tokens", "stream"]
    ++ opts.additionalParams

/-- `CONFIG.GENERATION.useJsonOutlineWhenAvailable` (`config.js`). -/
def CONFIG_useJsonOutlineWhenAvailable : Bool := true

/-- The options `APIManager.generateOutline` passes to `makeChatRequest` for
a ChatStyle model: it *does* supply a `response_format` option when JSON
outlines are enabled (`wantsJson ? { type: 'json_object' } : undefined`),
and no `additionalParams`. -/
def generateOutlineChatOptions (model : String) (temperature : Option Nat) :
    ChatRequestOptions :=
  { model := some model
    temperature := temperature
    maxTokens := none
    presencePenalty := none
    frequencyPenalty := none
    topP := none
    responseFormat :=
      if CONFIG_useJsonOutlineWhenAvailable then some "json_object" else none
    additionalParams := [] }

/-- **C7.** For every request built for the ChatStyle endpoint by
`makeChatRequest` or `streamChatRequest` whose `additionalParams` do not
smuggle the key in (no call site in the repository passes
`additionalParams` at all), the serialized payload contains no
`response_format` key — even when the caller supplies a `response_format`
option, as `generateOutline` does for ChatStyle models when JSON outlines
are enabled. -/
theorem chatStyle_never_serializes_response_format
    (opts : ChatRequestOptions)
    (h : "response_format" ∉ opts.additionalParams) :
    "response_format" ∉ makeChatRequestKeys opts ∧
    "response_format" ∉ streamChatRequestKeys opts := by
  obtain ⟨m, t, mt, pp, fp, tp, rf, ap⟩ := opts
  constructor
  · intro hmem
    simp only [makeChatRequestKeys, List.append_assoc, List.mem_append,
      List.mem_cons, List.mem_singleton, List.not_mem_nil] at hmem
    rcases hmem with h1 | h2
    · rcases h1 with h1 | h1 | h1 | h1 | h1 <;> simp_all
    · rcases h2 with h2 | h2
      · cases pp <;> simp_all
      rcases h2 with h2 | h2
      · cases fp <;> simp_all
      rcases h2 with h2 | h2
      · cases tp <;> simp_all
      rcases h2 with h2 | h2
      · simp_all
      · exact h h2
  · intro hmem
    simp only [streamChatRequestKeys, List.mem_append, List.mem_cons,
      List.not_mem_nil] at hmem
    rcases hmem with h1 | h2
    · simp_all
    · exact h h2

/-- Witness for C7 at the concrete options `generateOutline` builds for the
ChatStyle model `gpt-4o-mini` (which include
`response_format: { type: 'json_object' }`). -/
theorem chatStyle_never_serializes_response_format_witness :
    "response_format" ∉
        makeChatRequestKeys (generateOutlineChatOptions "gpt-4o-mini" none) ∧
    "response_format" ∉
        streamChatRequestKeys (generateOutlineChatOptions "gpt-4o-mini" none) :=
  chatStyle_never_serializes_response_format
    (generateOutlineChatOptions "gpt-4o-mini" none) (by simp [generateOutlineChatOptions])

/-! ## A strict JSON parser modelling `JSON.parse`

`streamChatRequest` calls `JSON.parse` on each server-sent-event frame.
The parser below accepts the JSON fragment those frames use: objects,
arrays, double-quoted strings with the standard escapes, integer numbers,
`true`/`false`/`null`, with JSON whitespace.  Anything else (including
fractional/exponent numbers, which never occur in the statements below)
fails, which the stream loop treats like a `JSON.parse` exception. -/

inductive Json where
  | null : Json
  | bool (b : Bool) : Json
  | num (n : Int) : Json
  | str (s : String) : Json
  | arr (elems : List Json) : Json
  | obj (fields : List (String × Json)) : Json

/-- Decode the body of a JSON string literal (after the opening quote).
Returns the decoded characters and the input following the closing quote. -/
def parseJsonStringBody : List Char → Option (List Char × List Char)
  | [] => none
  | '"' :: rest => some ([], rest)
  | '\\' :: e :: rest =>
    match e with
    | '"' => (parseJsonStringBody rest).map (fun r => ('"' :: r.1, r.2))
    | '\\' => (parseJsonStringBody rest).map (fun r => ('\\' :: r.1, r.2))
    | '/' => (parseJsonStringBody rest).map (fun r => ('/' :: r.1, r.2))
    | 'n' => (parseJsonStringBody rest).map (fun r => ('\n' :: r.1, r.2))
    | 't' => (parseJsonStringBody rest).map (fun r => ('\t' :: r.1, r.2))
    | 'r' => (parseJsonStringBody rest).map (fun r => ('\r' :: r.1, r.2))
    | 'b' => (parseJsonStringBody rest).map (fun r => ('\x08' :: r.1, r.2))
    | 'f' => (parseJsonStringBody rest).map (fun r => ('\x0c' :: r.1, r.2))
    | _ => none
  | c :: rest =>
    if c == '"' || c == '\\' then none
    else (parseJsonStringBody rest).map (fun r => (c :: r.1, r.2))

/-- Parse an integer JSON number (optional minus, one or more digits). -/
def parseJsonInt : List Char → Option (Int × List Char)
  | cs =>
    let (neg, cs') := match cs with
      | '-' :: t => (true, t)
      | t => (false, t)
    let ds := cs'.takeWhile isAsciiDigit
    let rest := cs'.dropWhile isAsciiDigit
    if ds.isEmpty then none
    else
      -- fractional and exponent forms are outside the modelled fragment
      match rest with
      | '.' :: _ => none
      | 'e' :: _ => none
      | 'E' :: _ => none
      | _ =>
        let v : Int := ds.foldl (fun acc d => acc * 10 + (d.toNat - 48)) 0
        some (if neg then -v else v, rest)

mutual

/-- Parse one JSON value; `fuel` bounds the nesting/parsing steps. -/
def parseJsonValue : Nat → List Char → Option (Json × List Char)
  | 0, _ => none
  | fuel + 1, cs =>
    match cs.dropWhile isJsonWs with
    | '{' :: rest =>
      (parseJsonObjFields fuel (rest.dropWhile isJsonWs)).map
        (fun r => (Json.obj r.1, r.2))
    | '[' :: rest =>
      (parseJsonArrElems fuel (rest.dropWhile isJsonWs)).map
        (fun r => (Json.arr r.1, r.2))
    | '"' :: rest =>
      (parseJsonStringBody rest).map (fun r => (Json.str ⟨r.1⟩, r.2))
    | 't' :: 'r' :: 'u' :: 'e' :: rest => some (Json.bool true, rest)
    | 'f' :: 'a' :: 'l' :: 's' :: 'e' :: rest => some (Json.bool false, rest)
    | 'n' :: 'u' :: 'l' :: 'l' :: rest => some (Json.null, rest)
    | other => (parseJsonInt other).map (fun r => (Json.num r.1, r.2))

/-- Parse the elements of an array, positioned after `[` (and whitespace).
Handles the empty array and comma-separated elements. -/
def parseJsonArrElems : Nat → List Char → Option (List Json × List Char)
  | 0, _ => none
  | fuel + 1, cs =>
    match cs with
    | ']' :: rest => some ([], rest)
    | _ =>
      match parseJsonValue fuel cs with
      | none => none
      | some (v, rest) =>
        match rest.dropWhile isJsonWs with
        | ']' :: rest' => some ([v], rest')
        | ',' :: rest' =>
          (parseJsonArrElems fuel (rest'.dropWhile isJsonWs)).map
            (fun r => (v :: r.1, r.2))
        | _ => none

/-- Parse the fields of an object, positioned after `{` (and whitespace). -/
def parseJsonObjFields : Nat → List Char → Option (List (String × Json) × List Char)
  | 0, _ => none
  | fuel + 1, cs =>
    match cs with
    | '}' :: rest => some ([], rest)
    | '"' :: rest =>
      match parseJsonStringBody rest with
      | none => none
      | some (key, rest') =>
        match rest'.dropWhile isJsonWs with
        | ':' :: rest'' =>
          match parseJsonValue fuel rest'' with
          | none => none
          | some (v, rest3) =>
            match rest3.dropWhile isJsonWs with
            | '}' :: rest4 => some ([(⟨key⟩, v)], rest4)
            | ',' :: rest4 =>
              (parseJsonObjFields fuel (rest4.dropWhile isJsonWs)).map
                (fun r => ((⟨key⟩, v) :: r.1, r.2))
            | _ => none
        | _ => none
    | _ => none

end

/-- `JSON.parse`: the whole input must be one value (with surrounding
whitespace). -/
def parseJson (s : String) : Option Json :=
  match parseJsonValue (s.data.length + 1) s.data with
  | some (j, rest) => if (rest.dropWhile isJsonWs).isEmpty then some j else none
  | none => none

/-- Field lookup on a parsed object (`payload.key`); `none` models
`undefined`. -/
def jsonGet (j : Json) (key : String) : Option Json :=
  match j with
  | Json.obj fields => (fields.find? (fun p => p.1 == key)).map Prod.snd
  | _ => none

/-! ## `api.js`: the streaming read loop of `streamChatRequest` -/

/-- One invocation of the `onDelta` callback:
`(tokenDelta, aggregateSoFar, isFinal)`. -/
structure StreamEvent where
  delta : String
  aggregate : String
  isFinal : Bool
deriving DecidableEq

/-- `payload.choices?.[0]?.delta?.content || ''` — the incremental token of
one parsed frame (non-string `content` values, which never occur in chat
deltas, are treated as the falsy branch `''`). -/
def extractToken (j : Json) : String :=
  match jsonGet j "choices" with
  | some (Json.arr (c0 :: _)) =>
    match jsonGet c0 "delta" with
    | some d =>
      match jsonGet d "content" with
      | some (Json.str s) => s
      | _ => ""
    | none => ""
  | _ => ""

/-- `line.trim()` followed by the `startsWith('data:')` guard and
`line.replace(/^data:\s*/, '')`: the payload of a data frame, if the line
is one. -/
def dataLinePayload (raw : String) : Option String :=
  let line := jsTrimList raw.data
  if "data:".data.isPrefixOf line then
    some ⟨(line.drop 5).dropWhile isJsWs⟩
  else
    none

/-- Process the lines of one decoded chunk (the body of
`for (const raw of lines)`), given the aggregate so far.  Returns the
callback events emitted, the final aggregate, and whether the `[DONE]`
sentinel was hit (in which case the function returns immediately and later
lines are not examined). -/
def processLines : List String → String → List StreamEvent × String × Bool
  | [], agg => ([], agg, false)
  | raw :: rest, agg =>
    match dataLinePayload raw with
    | none => processLines rest agg
    | some d =>
      if d == "[DONE]" then
        ([⟨"", agg, true⟩], agg, true)
      else
        match parseJson d with
        | none => processLines rest agg
        | some j =>
          let token := extractToken j
          if token == "" then processLines rest agg
          else
            let r := processLines rest (agg ++ token)
            (⟨token, agg ++ token, false⟩ :: r.1, r.2)

/-- The outer `while` loop over decoded chunks (`reader.read()` results).
The connection closing (`done`) corresponds to the chunk list running out. -/
def processChunks : List String → String → List StreamEvent × String × Bool
  | [], agg => ([], agg, false)
  | chunk :: rest, agg =>
    let r := processLines (jsSplitNl chunk) agg
    if r.2.2 then r
    else
      let r' := processChunks rest r.2.1
      (r.1 ++ r'.1, r'.2)

/-- `APIManager.streamChatRequest`, abstracted over the chunk sequence the
response body delivers: the `onDelta` events in order, and the returned
aggregate. -/
def streamChatRequest (chunks : List String) : List StreamEvent × String :=
  let r := processChunks chunks ""
  (r.1, r.2.1)

/-- A line after which the stream loop returns: a trimmed `data:` frame
whose payload is the `[DONE]` sentinel. -/
def isDoneLine (raw : String) : Bool :=
  match dataLinePayload raw with
  | some d => d == "[DONE]"
  | none => false

/-- Some chunk of the stream contains a `[DONE]` sentinel frame. -/
def hasDoneFrame (chunks : List String) : Bool :=
  chunks.any (fun c => (jsSplitNl c).any isDoneLine)

/-- Concatenation of the delivered token deltas, in order. -/
def concatDeltas (evs : List StreamEvent) : String :=
  evs.foldr (fun ev acc => ev.delta ++ acc) ""

theorem concatDeltas_append (a b : List StreamEvent) :
    concatDeltas (a ++ b) = concatDeltas a ++ concatDeltas b := by
  induction a with
  | nil => simp [concatDeltas]
  | cons e t ih => simp [concatDeltas, List.foldr_cons] at ih ⊢; rw [ih]; simp [String.append_assoc]

theorem processLines_done_flag (lines : List String) :
    ∀ agg, (processLines lines agg).2.2 = lines.any isDoneLine := by
  induction lines with
  | nil => intro agg; simp [processLines]
  | cons raw rest ih =>
    intro agg
    simp only [List.any_cons, isDoneLine]
    cases hd : dataLinePayload raw with
    | none => simp [processLines, hd, ih]
    | some d =>
      by_cases hdone : (d == "[DONE]") = true
      · simp [processLines, hd, hdone]
      · simp only [Bool.not_eq_true] at hdone
        simp only [processLines, hd, hdone, Bool.false_or]
        cases hj : parseJson d with
        | none => simp [ih]
        | some j =>
          by_cases ht : (extractToken j == "") = true
          · simp [ht, ih]
          · simp only [Bool.not_eq_true] at ht
            simp [ht, ih]

theorem processLines_final_any (lines : List String) :
    ∀ agg, ((processLines lines agg).1.any (fun ev => ev.isFinal)) =
      (processLines lines agg).2.2 := by
  induction lines with
  | nil => intro agg; simp [processLines]
  | cons raw rest ih =>
    intro agg
    cases hd : dataLinePayload raw with
    | none => simp [processLines, hd, ih]
    | some d =>
      by_cases hdone : (d == "[DONE]") = true
      · simp [processLines, hd, hdone]
      · simp only [Bool.not_eq_true] at hdone
        simp only [processLines, hd, hdone]
        cases hj : parseJson d with
        | none => simp [ih]
        | some j =>
          by_cases ht : (extractToken j == "") = true
          · simp [ht, ih]
          · simp only [Bool.not_eq_true] at ht
            simp [ht, ih]

theorem processLines_agg_of_not_done (lines : List String) :
    ∀ agg, (processLines lines agg).2.2 = false →
      (processLines lines agg).2.1 =
        agg ++ concatDeltas (processLines lines agg).1 := by
  induction lines with
  | nil => intro agg _; simp [processLines, concatDeltas]
  | cons raw rest ih =>
    intro agg hflag
    cases hd : dataLinePayload raw with
    | none =>
      simp only [processLines, hd] at hflag ⊢
      exact ih agg hflag
    | some d =>
      by_cases hdone : (d == "[DONE]") = true
      · simp [processLines, hd, hdone] at hflag
      · simp only [Bool.not_eq_true] at hdone
        simp only [processLines, hd, hdone] at hflag ⊢
        cases hj : parseJson d with
        | none =>
          simp only [hj] at hflag ⊢
          exact ih agg hflag
        | some j =>
          simp only [hj] at hflag ⊢
          by_cases ht : (extractToken j == "") = true
          · simp only [ht, if_pos] at hflag ⊢
            exact ih agg hflag
          · simp only [Bool.not_eq_true] at ht
            simp only [ht, Bool.false_eq_true, if_false] at hflag ⊢
            have := ih (agg ++ extractToken j) hflag
            simp only [concatDeltas, List.foldr_cons] at this ⊢
            rw [this, String.append_assoc]

theorem processChunks_done_flag (chunks : List String) :
    ∀ agg, (processChunks chunks agg).2.2 = hasDoneFrame chunks := by
  induction chunks with
  | nil => intro agg; simp [processChunks, hasDoneFrame]
  | cons chunk rest ih =>
    intro agg
    simp only [hasDoneFrame, List.any_cons]
    by_cases hflag : (processLines (jsSplitNl chunk) agg).2.2 = true
    · have hc : (jsSplitNl chunk).any isDoneLine = true :=
        (processLines_done_flag (jsSplitNl chunk) agg).symm.trans hflag
      simp [processChunks, hflag, hc]
    · simp only [Bool.not_eq_true] at hflag
      have hc : (jsSplitNl chunk).any isDoneLine = false :=
        (processLines_done_flag (jsSplitNl chunk) agg).symm.trans hflag
      simp [processChunks, hflag, hc, ih, hasDoneFrame]

theorem processChunks_final_any (chunks : List String) :
    ∀ agg, ((processChunks chunks agg).1.any (fun ev => ev.isFinal)) =
      (processChunks chunks agg).2.2 := by
  induction chunks with
  | nil => intro agg; simp [processChunks]
  | cons chunk rest ih =>
    intro agg
    by_cases hflag : (processLines (jsSplitNl chunk) agg).2.2 = true
    · simp only [processChunks, hflag, if_pos]
      rw [processLines_final_any, hflag]
    · simp only [Bool.not_eq_true] at hflag
      simp only [processChunks, hflag, Bool.false_eq_true, if_false,
        List.any_append]
      rw [processLines_final_any, hflag, ih]
      simp
  
theorem processChunks_agg_of_not_done (chunks : List String) :
    ∀ agg, (processChunks chunks agg).2.2 = false →
      (processChunks chunks agg).2.1 =
        agg ++ concatDeltas (processChunks chunks agg).1 := by
  induction chunks with
  | nil => intro agg _; simp [processChunks, concatDeltas]
  | cons chunk rest ih =>
    intro agg hflag
    by_cases hf : (processLines (jsSplitNl chunk) agg).2.2 = true
    · simp only [processChunks, hf, if_pos] at hflag
      simp at hflag
    · simp only [Bool.not_eq_true] at hf
      simp only [processChunks, hf, Bool.false_eq_true, if_false] at hflag ⊢
      rw [concatDeltas_append, ih _ hflag,
        processLines_agg_of_not_done (jsSplitNl chunk) agg hf,
        String.append_assoc]

/-- The first chunk of the C6 scenario:
`data: {"choices":[{"delta":{"content":"Hi"}}]}` and a newline. -/
def hiFrameChunk : String :=
  "data: \x7b\"choices\":[\x7b\"delta\":\x7b\"content\":\"Hi\"\x7d\x7d]\x7d\n"

/-- The terminating sentinel chunk `data: [DONE]` and a newline. -/
def doneChunk : String := "data: [DONE]\n"

/-- A malformed frame (`data: {oops`): its payload is not valid JSON. -/
def oopsChunk : String := "data: \x7boops\n"

/-- **C6.** Consuming the chunk
`"data: {\"choices\":[{\"delta\":{\"content\":\"Hi\"}}]}\n"` followed by the
chunk `"data: [DONE]\n"`, the streaming aggregator invokes the per-token
callback first with `("Hi", "Hi", false)`, then with a final call whose
aggregate is `"Hi"` and whose `isFinal` flag is `true`, and the function
returns `"Hi"`.  Interposing a malformed frame does not change this, and in
general a data frame whose payload fails to parse is skipped without
aborting the stream. -/
theorem streamChatRequest_hi_done :
    streamChatRequest [hiFrameChunk, doneChunk] =
      ([⟨"Hi", "Hi", false⟩, ⟨"", "Hi", true⟩], "Hi") ∧
    streamChatRequest [hiFrameChunk, oopsChunk, doneChunk] =
      ([⟨"Hi", "Hi", false⟩, ⟨"", "Hi", true⟩], "Hi") ∧
    ∀ raw d rest agg, dataLinePayload raw = some d → (d == "[DONE]") = false →
      parseJson d = none →
      processLines (raw :: rest) agg = processLines rest agg := by
  refine ⟨by decide, by decide, ?_⟩
  intro raw d rest agg h1 h2 h3
  simp [processLines, h1, h2, h3]

/-- Witness for the skip clause of C6 at the concrete malformed frame
`"data: {oops"`. -/
theorem streamChatRequest_hi_done_witness :
    processLines ["data: \x7boops", "data: [DONE]"] "" =
      processLines ["data: [DONE]"] "" :=
  streamChatRequest_hi_done.2.2 "data: \x7boops" "\x7boops"
    ["data: [DONE]"] "" (by decide) (by decide) (by rfl)

/-- **C10.** The final `( _, aggregate, true)` callback is delivered exactly
when a `data: [DONE]` sentinel frame is received, and only then: the events
emitted by `streamChatRequest` contain a final event iff the chunk sequence
contains a `[DONE]` frame; and when the stream ends (connection close)
without a `[DONE]` frame, no callback is ever invoked with `isFinal = true`
and the function still returns the aggregate accumulated so far (the
concatenation of all delivered deltas). -/
theorem streamChatRequest_final_iff_done (chunks : List String) :
    ((streamChatRequest chunks).1.any (fun ev => ev.isFinal) =
      hasDoneFrame chunks) ∧
    (hasDoneFrame chunks = false →
      (∀ ev ∈ (streamChatRequest chunks).1, ev.isFinal = false) ∧
      (streamChatRequest chunks).2 = concatDeltas (streamChatRequest chunks).1) := by
  constructor
  · unfold streamChatRequest
    rw [processChunks_final_any, processChunks_done_flag]
  · intro hno
    have hflag : (processChunks chunks "").2.2 = false :=
      (processChunks_done_flag chunks "").trans hno
    constructor
    · intro ev hev
      have hany : ((processChunks chunks "").1.any (fun e => e.isFinal)) = false :=
        (processChunks_final_any chunks "").trans hflag
      rw [List.any_eq_false] at hany
      simpa using hany ev hev
    · unfold streamChatRequest
      have := processChunks_agg_of_not_done chunks "" hflag
      simpa using this

/-- Witness for C10 at a concrete chunk list with no `[DONE]` frame
(connection closed early after one token frame). -/
theorem streamChatRequest_final_iff_done_witness :
    ((streamChatRequest
        [hiFrameChunk]).1.any
          (fun ev => ev.isFinal) =
      hasDoneFrame
        [hiFrameChunk]) ∧
    (hasDoneFrame [hiFrameChunk] = false →
      (∀ ev ∈ (streamChatRequest
          [hiFrameChunk]).1,
        ev.isFinal = false) ∧
      (streamChatRequest
          [hiFrameChunk]).2 =
        concatDeltas (streamChatRequest
          [hiFrameChunk]).1) :=
  streamChatRequest_final_iff_done
    [hiFrameChunk]

/-! ## `script.js`: the pipeline data model (`currentProject`,
`generationState`)

`BookGenerator.currentProject` is the durable pipeline state
(`storageManager.saveProject` persists exactly this object, plus a
timestamp/version stamp; `getLastProject` parses it back — a lossless JSON
round trip for these fields).  `BookGenerator.generationState` is the
in-memory generation state created afresh in the constructor and never
persisted. -/

/-- One entry of `currentProject.chapters`. -/
structure Chapter where
  title : String
  content : String
  /-- `generatedAt` (`new Date().toISOString()`), abstracted to the value
  of an external clock at the step that wrote the entry. -/
  generatedAt : Nat
  wordCount : Nat
deriving DecidableEq

/-- The fields of `currentProject.metadata` the chapter pipeline reads:
the explicit book title and `metadata.outlineJson.chapters` (each with a
`title` that is either a string or — `none` here — some non-string value). -/
structure ProjectMetadata where
  title : String
  outlineJsonChapters : Option (List (Option String))
deriving DecidableEq

/-- `BookGenerator.currentProject` (the fields the generation pipeline
touches; settings and the remaining metadata are carried through saves
unchanged and are omitted). -/
structure Project where
  concept : String
  tableOfContents : String
  chapters : List Chapter
  metadata : ProjectMetadata
deriving DecidableEq

/-- `BookGenerator.generationState`. -/
structure GenerationState where
  isGenerating : Bool
  chapterIndex : Nat
  autoGenerate : Bool
deriving DecidableEq

/-- The `generationState` built by the `BookGenerator` constructor — this is
the state a page reload starts from (`currentStep` is omitted; the pipeline
never reads it). -/
def initialGenerationState : GenerationState :=
  { isGenerating := false, chapterIndex := 0, autoGenerate := false }

/-! ## `script.js`: the chapter-title extractor (`parseTableOfContents`)

The fallback branch maps
`line.match(/^(?:Chapter\s+\d+:?\s*)?(.+?)(?:\s*-\s*.+)?$/i)` over the
trimmed, non-empty, non-`#` lines and takes `match[1].trim()`.  The model
below follows the JavaScript backtracking semantics of that expression:

* the optional greedy prefix group `(?:Chapter\s+\d+:?\s*)?` produces
  candidate remainders in backtracking order (`\s+` and `\d+` from longest
  to length 1, `:?` with the colon first, `\s*` from longest to empty);
* the lazy group `(.+?)` consumes the least `k ≥ 1` characters such that
  the remainder matches `(?:\s*-\s*.+)?$`;
* `(?:\s*-\s*.+)?$` matches a remainder iff it is empty, or its first
  non-whitespace character is `-` with at least one character after it.

Since `(.+?)…$` succeeds on every non-empty remainder, the engine commits
to the first prefix candidate with a non-empty remainder, and drops the
prefix group entirely when there is none. -/

/-- Does a remainder match `(?:\s*-\s*.+)?$`?  (Lines contain no `\n`, so
`.` matches every remaining character.) -/
def tailOptMatches (cs : List Char) : Bool :=
  match cs.dropWhile isJsWs with
  | [] => cs.isEmpty
  | c :: rest => if c == '-' then !rest.isEmpty else cs.isEmpty

/-- The lazy `(.+?)`: accumulate characters until the remainder matches
`(?:\s*-\s*.+)?$` (which always happens at the end of the line, where
`tailOptMatches [] = true`). -/
def coreScan : List Char → List Char → List Char
  | acc, [] => acc.reverse
  | acc, c :: r =>
    if tailOptMatches (c :: r) then acc.reverse
    else coreScan (c :: acc) r

/-- Match `(.+?)(?:\s*-\s*.+)?$` against a remainder: fails only on the
empty remainder (the lazy group needs one character). -/
def coreMatch : List Char → Option (List Char)
  | [] => none
  | c :: rest => some (coreScan [c] rest)

/-- Remainders after `\s*` (the last prefix component), longest consumed
whitespace first (`\s*` is greedy, down to the empty match). -/
def candAfterColon (afterC : List Char) : List (List Char) :=
  let ws2 := (afterC.takeWhile isJsWs).length
  ((List.range (ws2 + 1)).map (fun i => ws2 - i)).map (fun c2 => afterC.drop c2)

/-- Remainder candidates after `:?\s*`: the colon branch first when a colon
is present. -/
def candAfterDigits (afterD : List Char) : List (List Char) :=
  let colonOpts : List Nat :=
    match afterD with
    | [] => [0]
    | c :: _ => if c == ':' then [1, 0] else [0]
  colonOpts.flatMap (fun col => candAfterColon (afterD.drop col))

/-- Remainder candidates after `\d+:?\s*`: digits greedy, at least one. -/
def candAfterWs (afterWs : List Char) : List (List Char) :=
  let dMax := (afterWs.takeWhile isAsciiDigit).length
  ((List.range dMax).map (fun i => dMax - i)).flatMap
    (fun b => candAfterDigits (afterWs.drop b))

/-- Remainder candidates after `\s+\d+:?\s*`: whitespace greedy, at least
one. -/
def candAfterChapter (afterChap : List Char) : List (List Char) :=
  let wsMax := (afterChap.takeWhile isJsWs).length
  ((List.range wsMax).map (fun i => wsMax - i)).flatMap
    (fun a => candAfterWs (afterChap.drop a))

/-- Remainders after the greedy optional prefix `(?:Chapter\s+\d+:?\s*)?`,
in the order the backtracking engine tries them (empty when the literal
`Chapter`, case-insensitively, is not present). -/
def prefixCandidates (cs : List Char) : List (List Char) :=
  if "chapter".data.isPrefixOf (jsToLowerList cs) then
    candAfterChapter (cs.drop 7)
  else []

/-- `match[1]` of `/^(?:Chapter\s+\d+:?\s*)?(.+?)(?:\s*-\s*.+)?$/i`, or
`none` when the line does not match (only the empty line). -/
def regexGroup1 (cs : List Char) : Option (List Char) :=
  match (prefixCandidates cs).find? (fun r => !r.isEmpty) with
  | some r => coreMatch r
  | none => coreMatch cs

/-- `match ? match[1].trim() : line` for one line. -/
def extractTitle (line : String) : String :=
  match regexGroup1 line.data with
  | some g => ⟨jsTrimList g⟩
  | none => line

/-- `BookGenerator.parseTableOfContents`: the structured
`metadata.outlineJson.chapters` list is authoritative when present
(non-string titles become `''` and are filtered out); otherwise the outline
text is split into trimmed, non-empty, non-`#` lines and each line goes
through the regex extractor. -/
def parseTableOfContents (p : Project) : List String :=
  match p.metadata.outlineJsonChapters with
  | some chs =>
    (chs.map (fun t =>
      match t with
      | some s => jsTrim s
      | none => "")).filter (fun s => !(s == ""))
  | none =>
    (((jsSplitNl p.tableOfContents).map jsTrim).filter
      (fun line => !(line == "") && !("#".data.isPrefixOf line.data))).map
        extractTitle

theorem digit_not_ws (c : Char) (h : isAsciiDigit c = true) : isJsWs c = false := by
  by_contra hne
  simp only [Bool.not_eq_false] at hne
  simp only [isJsWs, Bool.or_eq_true, beq_iff_eq] at hne
  rcases hne with ((((rfl | rfl) | rfl) | rfl) | rfl) | rfl <;>
    exact absurd h (by decide)

theorem isPrefixOf_append_self (l r : List Char) :
    l.isPrefixOf (l ++ r) = true := by
  induction l with
  | nil => simp [List.isPrefixOf]
  | cons c t ih => simp [List.isPrefixOf, ih]

theorem takeWhile_append_eq (p : Char → Bool) (l r : List Char)
    (hl : ∀ c ∈ l, p c = true)
    (hr : ∀ c, r.head? = some c → p c = false) :
    (l ++ r).takeWhile p = l := by
  induction l with
  | nil =>
    cases r with
    | nil => simp
    | cons c t =>
      have := hr c (by simp)
      simp [List.takeWhile_cons, this]
  | cons c t ih =>
    have hc := hl c (by simp)
    simp only [List.cons_append, List.takeWhile_cons, hc, if_pos]
    rw [ih (fun d hd => hl d (by simp [hd]))]

theorem jsTrimList_eq_self (l : List Char)
    (hh : ∀ c, l.head? = some c → isJsWs c = false)
    (hl : ∀ c, l.getLast? = some c → isJsWs c = false) :
    jsTrimList l = l := by
  unfold jsTrimList
  have h1 : l.dropWhile isJsWs = l := by
    cases l with
    | nil => simp
    | cons c t => simp [List.dropWhile_cons, hh c (by simp)]
  rw [h1]
  have h2 : l.reverse.dropWhile isJsWs = l.reverse := by
    cases hrev : l.reverse with
    | nil => simp
    | cons c t =>
      have hc : l.getLast? = some c := by
        rw [← List.head?_reverse, hrev]; simp
      simp [List.dropWhile_cons, hl c hc]
  rw [h2, List.reverse_reverse]

/-- The separator remainder `" - " ++ desc` matches `(?:\s*-\s*.+)?$` when
the description is non-empty. -/
theorem tailOptMatches_sep (desc : List Char) (h : desc ≠ []) :
    tailOptMatches (' ' :: '-' :: ' ' :: desc) = true := by
  simp [tailOptMatches, List.dropWhile_cons, isJsWs, h]

/-- A remainder that starts inside the title (a non-empty, dash-free chunk
whose last character is not whitespace) does not match `(?:\s*-\s*.+)?$`. -/
theorem tailOptMatches_inside_title (s rest : List Char)
    (hne : s ≠ []) (hdash : '-' ∉ s)
    (hlast : ∀ c, s.getLast? = some c → isJsWs c = false) :
    tailOptMatches (s ++ rest) = false := by
  have hlast' : ∃ c, s.getLast? = some c := by
    cases s with
    | nil => exact absurd rfl hne
    | cons a t => exact ⟨(a :: t).getLast (by simp), List.getLast?_eq_getLast _ _⟩
  obtain ⟨lc, hlc⟩ := hlast'
  have hdws : s.dropWhile isJsWs ≠ [] := by
    intro hnil
    have hall := List.dropWhile_eq_nil_iff.mp hnil
    have : lc ∈ s := List.mem_of_mem_getLast? hlc
    exact absurd (hall lc this) (by simp [hlast lc hlc])
  obtain ⟨h0, tl, hcons⟩ : ∃ h0 tl, s.dropWhile isJsWs = h0 :: tl := by
    cases hd : s.dropWhile isJsWs with
    | nil => exact absurd hd hdws
    | cons a t => exact ⟨a, t, rfl⟩
  have hmem : h0 ∈ s := by
    have hsf : s.dropWhile isJsWs <:+ s := List.dropWhile_suffix isJsWs
    exact hsf.subset (by simp [hcons])
  have hne0 : (h0 == '-') = false := by
    simp only [beq_eq_false_iff_ne, ne_eq]
    intro hEq
    exact hdash (hEq ▸ hmem)
  have happ : (s ++ rest).dropWhile isJsWs = h0 :: (tl ++ rest) := by
    rw [List.dropWhile_append]
    simp [hcons]
  unfold tailOptMatches
  rw [happ]
  simp only [hne0, Bool.false_eq_true, if_false]
  simp [hne]

/-- The lazy group `(.+?)` consumes exactly the title: scanning
`t ++ extra` where no non-empty suffix of `t` (with the following `extra`)
matches the optional tail, but `extra` itself does, yields the accumulator
followed by `t`. -/
theorem coreScan_append (extra : List Char)
    (hend : tailOptMatches extra = true) :
    ∀ t : List Char,
      (∀ s, s <:+ t → s ≠ [] → tailOptMatches (s ++ extra) = false) →
      ∀ acc, coreScan acc (t ++ extra) = acc.reverse ++ t := by
  intro t
  induction t with
  | nil =>
    intro _ acc
    cases extra with
    | nil => simp [coreScan]
    | cons e r => simp [coreScan, hend]
  | cons c t' ih =>
    intro hsuf acc
    have hcur : tailOptMatches ((c :: t') ++ extra) = false :=
      hsuf (c :: t') (List.suffix_refl _) (by simp)
    rw [coreScan.eq_def]
    simp only [List.cons_append] at hcur ⊢
    rw [hcur]
    simp only [Bool.false_eq_true, if_false]
    rw [ih (fun s hs hne => hsuf s (hs.trans (List.suffix_cons c t')) hne)
        (c :: acc)]
    simp



theorem takeWhile_ws_space (X : List Char)
    (hX : ∀ c, X.head? = some c → isJsWs c = false) :
    (' ' :: X).takeWhile isJsWs = [' '] := by
  have := takeWhile_append_eq isJsWs [' '] X
    (by intro c hc; simp at hc; subst hc; decide) hX
  simpa using this

theorem candAfterColon_space (X : List Char)
    (hX : ∀ c, X.head? = some c → isJsWs c = false) :
    candAfterColon (' ' :: X) = [X, ' ' :: X] := by
  unfold candAfterColon
  rw [takeWhile_ws_space X hX]
  simp [List.range_succ_eq_map]

theorem candAfterDigits_colon (X : List Char) :
    candAfterDigits (':' :: X) =
      candAfterColon X ++ candAfterColon (':' :: X) := by
  unfold candAfterDigits
  simp

theorem candAfterWs_digits (ds X : List Char)
    (hds : ds ≠ []) (hdsd : ds.all isAsciiDigit = true)
    (hX : ∀ c, X.head? = some c → isAsciiDigit c = false) :
    ∃ junk, candAfterWs (ds ++ X) = candAfterDigits X ++ junk := by
  obtain ⟨d, ds₁, rfl⟩ : ∃ d ds₁, ds = d :: ds₁ := by
    cases ds with
    | nil => exact absurd rfl hds
    | cons a t => exact ⟨a, t, rfl⟩
  have htw : ((d :: ds₁) ++ X).takeWhile isAsciiDigit = d :: ds₁ :=
    takeWhile_append_eq isAsciiDigit (d :: ds₁) X
      (fun c hc => List.all_eq_true.mp hdsd c hc) hX
  have hdl : ((d :: ds₁) ++ X).drop (ds₁.length + 1) = X := by
    have := List.drop_left (d :: ds₁) X
    simpa using this
  unfold candAfterWs
  rw [htw]
  simp only [List.length_cons, List.range_succ_eq_map, List.map_cons,
    List.flatMap_cons, Nat.sub_zero, hdl]
  exact ⟨_, rfl⟩

theorem candAfterChapter_space (X : List Char)
    (hX : ∀ c, X.head? = some c → isJsWs c = false) :
    candAfterChapter (' ' :: X) = candAfterWs X := by
  unfold candAfterChapter
  rw [takeWhile_ws_space X hX]
  show ((List.map (fun i => 1 - i) [0]).flatMap
      fun a => candAfterWs (List.drop a (' ' :: X))) = candAfterWs X
  simp

/-- For a line of the shape `marker ++ " " ++ digits ++ ": " ++ title ++ rest`
(title non-empty, not starting with whitespace), the backtracking engine
commits to the greedy prefix match: the first non-empty prefix-candidate
remainder is `title ++ rest`. -/
theorem find_prefixCandidates_marker (w ds title rest : List Char)
    (hw : jsToLowerList w = "chapter".data)
    (hds : ds ≠ []) (hdsd : ds.all isAsciiDigit = true)
    (ht : title ≠ [])
    (hth : ∀ c, title.head? = some c → isJsWs c = false) :
    (prefixCandidates
        (w ++ ' ' :: (ds ++ ':' :: ' ' :: (title ++ rest)))).find?
      (fun r => !r.isEmpty) = some (title ++ rest) := by
  obtain ⟨t0, title₁, rfl⟩ : ∃ a t, title = a :: t := by
    cases title with
    | nil => exact absurd rfl ht
    | cons a t => exact ⟨a, t, rfl⟩
  have hwlen : w.length = 7 := by
    have := congrArg List.length hw
    simpa [jsToLowerList] using this
  have hpre : "chapter".data.isPrefixOf
      (jsToLowerList
        (w ++ ' ' :: (ds ++ ':' :: ' ' :: ((t0 :: title₁) ++ rest)))) = true := by
    simp only [jsToLowerList, List.map_append]
    rw [show w.map Char.toLower = jsToLowerList w from rfl, hw]
    exact isPrefixOf_append_self _ _
  have hdrop : (w ++ ' ' :: (ds ++ ':' :: ' ' :: ((t0 :: title₁) ++ rest))).drop 7 =
      ' ' :: (ds ++ ':' :: ' ' :: ((t0 :: title₁) ++ rest)) := by
    rw [← hwlen]
    exact List.drop_left w _
  have hdig_head : ∀ c, (ds ++ ':' :: ' ' :: ((t0 :: title₁) ++ rest)).head? = some c →
      isJsWs c = false := by
    obtain ⟨d, ds₁, rfl⟩ : ∃ d ds₁, ds = d :: ds₁ := by
      cases ds with
      | nil => exact absurd rfl hds
      | cons a t => exact ⟨a, t, rfl⟩
    intro c hc
    simp only [List.cons_append, List.head?_cons, Option.some.injEq] at hc
    subst hc
    exact digit_not_ws d (List.all_eq_true.mp hdsd d (by simp))
  have hcolon_head : ∀ c, (':' :: ' ' :: ((t0 :: title₁) ++ rest)).head? = some c →
      isAsciiDigit c = false := by
    intro c hc
    simp only [List.head?_cons, Option.some.injEq] at hc
    subst hc
    decide
  have htitle_head : ∀ c, ((t0 :: title₁) ++ rest).head? = some c →
      isJsWs c = false := by
    intro c hc
    simp only [List.cons_append, List.head?_cons, Option.some.injEq] at hc
    subst hc
    exact hth t0 (by simp)
  obtain ⟨junk, hjunk⟩ :=
    candAfterWs_digits ds (':' :: ' ' :: ((t0 :: title₁) ++ rest)) hds hdsd hcolon_head
  unfold prefixCandidates
  rw [if_pos hpre, hdrop, candAfterChapter_space _ hdig_head, hjunk,
    candAfterDigits_colon, candAfterColon_space _ htitle_head]
  simp [List.find?_cons]

/-- The general behaviour of the chapter-title extractor on a marked line:
a case-insensitive `Chapter` word, an ordinal, a colon, a title that is
non-empty, dash-free and has no leading/trailing whitespace, and a
non-empty ` - description` suffix.  `match[1].trim()` is exactly the
title. -/
theorem extractTitle_chapter_marker (w ds title desc : List Char)
    (hw : jsToLowerList w = "chapter".data)
    (hds : ds ≠ []) (hdsd : ds.all isAsciiDigit = true)
    (ht : title ≠ []) (hdash : '-' ∉ title)
    (hh : ∀ c, title.head? = some c → isJsWs c = false)
    (hl : ∀ c, title.getLast? = some c → isJsWs c = false) (hdesc : desc ≠ []) :
    extractTitle
        ⟨w ++ ' ' :: (ds ++ ':' :: ' ' :: (title ++ ' ' :: '-' :: ' ' :: desc))⟩ =
      ⟨title⟩ := by
  obtain ⟨t0, title₁, rfl⟩ : ∃ a t, title = a :: t := by
    cases title with
    | nil => exact absurd rfl ht
    | cons a t => exact ⟨a, t, rfl⟩
  have hfind := find_prefixCandidates_marker w ds (t0 :: title₁)
    (' ' :: '-' :: ' ' :: desc) hw hds hdsd ht hh
  have hscan : coreScan [t0] (title₁ ++ ' ' :: '-' :: ' ' :: desc) =
      t0 :: title₁ := by
    have := coreScan_append (' ' :: '-' :: ' ' :: desc)
      (tailOptMatches_sep desc hdesc) title₁
      (fun s hs hne => by
        apply tailOptMatches_inside_title s _ hne
        · intro hmem
          exact hdash (List.mem_cons_of_mem t0 (hs.subset hmem))
        · intro c hc
          apply hl c
          obtain ⟨pre, rfl⟩ := hs
          rw [show t0 :: (pre ++ s) = (t0 :: pre) ++ s from rfl,
            List.getLast?_append_of_ne_nil _ hne]
          exact hc)
      [t0]
    simpa using this
  have hgroup : regexGroup1
      (w ++ ' ' :: (ds ++ ':' :: ' ' :: ((t0 :: title₁) ++ ' ' :: '-' :: ' ' :: desc))) =
      some (t0 :: title₁) := by
    unfold regexGroup1
    rw [hfind]
    show some (coreScan [t0] (title₁ ++ ' ' :: '-' :: ' ' :: desc)) = some (t0 :: title₁)
    rw [hscan]
  show (match regexGroup1
      (w ++ ' ' :: (ds ++ ':' :: ' ' :: ((t0 :: title₁) ++ ' ' :: '-' :: ' ' :: desc))) with
    | some g => (⟨jsTrimList g⟩ : String)
    | none =>
      (⟨w ++ ' ' :: (ds ++ ':' :: ' ' :: ((t0 :: title₁) ++ ' ' :: '-' :: ' ' :: desc))⟩ : String)) =
    ⟨t0 :: title₁⟩
  rw [hgroup]
  show (⟨jsTrimList (t0 :: title₁)⟩ : String) = ⟨t0 :: title₁⟩
  rw [jsTrimList_eq_self (t0 :: title₁) hh hl]

/-- The outline-text project of the C8 example: no structured chapter list,
free-text outline only. -/
def exampleOutlineProject : Project :=
  { concept := ""
    tableOfContents :=
      "Chapter 1: Intro - sets the scene\nChapter 2: Rising Action - things escalate\n"
    chapters := []
    metadata := { title := "", outlineJsonChapters := none } }

/-- **C8.** Given the outline text
`"Chapter 1: Intro - sets the scene\nChapter 2: Rising Action - things escalate\n"`
and no structured chapter list, `parseTableOfContents` returns exactly
`["Intro", "Rising Action"]`; and in general, on every line consisting of a
case-insensitive `Chapter N:` marker followed by a title (non-empty,
dash-free, with no surrounding whitespace) and a ` - description` suffix,
the extractor strips the marker and the suffix, returning exactly the
title. -/
theorem parseTableOfContents_strips_markers :
    parseTableOfContents exampleOutlineProject = ["Intro", "Rising Action"] ∧
    (∀ w ds title desc : List Char,
      jsToLowerList w = "chapter".data →
      ds ≠ [] → ds.all isAsciiDigit = true →
      title ≠ [] → '-' ∉ title →
      (∀ c, title.head? = some c → isJsWs c = false) →
      (∀ c, title.getLast? = some c → isJsWs c = false) →
      desc ≠ [] →
      extractTitle
          ⟨w ++ ' ' :: (ds ++ ':' :: ' ' :: (title ++ ' ' :: '-' :: ' ' :: desc))⟩ =
        ⟨title⟩) := by
  constructor
  · decide
  · intro w ds title desc hw hds hdsd ht hdash hh hl hdesc
    exact extractTitle_chapter_marker w ds title desc hw hds hdsd ht hdash hh hl hdesc

/-- Witness for the general clause of C8: an upper-case marker and a
two-digit ordinal, `extractTitle "CHAPTER 12: The Heist - the crew"` is
`"The Heist"`. -/
theorem parseTableOfContents_strips_markers_witness :
    extractTitle
        ⟨"CHAPTER".data ++ ' ' :: ("12".data ++ ':' :: ' ' ::
          ("The Heist".data ++ ' ' :: '-' :: ' ' :: "the crew".data))⟩ =
      ⟨"The Heist".data⟩ :=
  parseTableOfContents_strips_markers.2 "CHAPTER".data "12".data
    "The Heist".data "the crew".data
    (by decide) (by decide) (by decide) (by decide) (by decide)
    (fun c hc => by
      cases Option.some.inj (show some 'T' = some c from hc)
      decide)
    (fun c hc => by
      cases Option.some.inj (show some 't' = some c from hc)
      decide)
    (by decide)

/-! ## `script.js`: `extractBookTitle` and `getChapterContext` -/

/-- Try `/(?:Title|Book):\s*(.+)/i` at one position: the alternation
(`Title` preferred), a colon, greedy `\s*` backtracking so that `(.+)` keeps
at least one character. -/
def titleSearchAt (cs : List Char) : Option (List Char) :=
  let afterKw : Option (List Char) :=
    if "title".data.isPrefixOf (jsToLowerList cs) then some (cs.drop 5)
    else if "book".data.isPrefixOf (jsToLowerList cs) then some (cs.drop 4)
    else none
  match afterKw with
  | none => none
  | some r =>
    match r with
    | ':' :: r2 =>
      if r2.isEmpty then none
      else
        let wsRun := (r2.takeWhile isJsWs).length
        some (r2.drop (min wsRun (r2.length - 1)))
    | _ => none

/-- The unanchored search of `line.match(/(?:Title|Book):\s*(.+)/i)`:
leftmost match wins. -/
def titleSearch : List Char → Option (List Char)
  | [] => none
  | c :: t =>
    match titleSearchAt (c :: t) with
    | some g => some g
    | none => titleSearch t

/-- The `for (const line of lines)` scan: the first line with a match. -/
def findTitleLine : List String → Option (List Char)
  | [] => none
  | l :: t =>
    match titleSearch l.data with
    | some g => some g
    | none => findTitleLine t

/-- `BookGenerator.extractBookTitle`. -/
def extractBookTitle (p : Project) : String :=
  if !(p.metadata.title == "") && !(jsTrim p.metadata.title == "") then
    jsTrim p.metadata.title
  else if p.concept == "" then "Untitled Book"
  else
    match findTitleLine (jsSplitNl p.concept) with
    | some g => ⟨jsTrimList g⟩
    | none => "AI Generated Book"

/-- The context object `BookGenerator.getChapterContext` returns. -/
structure ChapterContext where
  title : String
  concept : String
  previousChapters : String
deriving DecidableEq

/-- One line of the prior-chapter digest:
``ch.title ++ ": " ++ ch.content.substring(0, 200) ++ "..."``. -/
def chapterDigestLine (ch : Chapter) : String :=
  ch.title ++ ": " ++ (⟨ch.content.data.take 200⟩ : String) ++ "..."

/-- `BookGenerator.getChapterContext(chapterIndex)`. -/
def getChapterContext (p : Project) (chapterIndex : Nat) : ChapterContext :=
  let previousChapters :=
    jsJoin "\n\n" ((p.chapters.take chapterIndex).map chapterDigestLine)
  { title := extractBookTitle p
    concept := p.concept
    previousChapters :=
      if previousChapters == "" then "This is the first chapter"
      else previousChapters }

theorem string_length_zero (s : String) (h : s.length = 0) : s = "" := by
  cases s with
  | mk data =>
    cases data with
    | nil => rfl
    | cons c t => simp [String.length] at h

theorem chapterDigestLine_ne_empty (ch : Chapter) :
    (chapterDigestLine ch == "") = false := by
  apply beq_eq_false_iff_ne.mpr
  intro h
  have hl := congrArg String.length h
  simp only [chapterDigestLine, String.length_append] at hl
  have h1 : (": " : String).length = 2 := rfl
  have h2 : ("..." : String).length = 3 := rfl
  have h3 : ("" : String).length = 0 := rfl
  omega

theorem jsJoin_cons_ne_empty (sep : String) (x : String) (xs : List String)
    (hx : (x == "") = false) :
    (jsJoin sep (x :: xs) == "") = false := by
  apply beq_eq_false_iff_ne.mpr
  intro h
  cases xs with
  | nil =>
    simp only [jsJoin] at h
    exact absurd (beq_eq_false_iff_ne.mp hx) (by simp [h])
  | cons y t =>
    simp only [jsJoin] at h
    have hl := congrArg String.length h
    simp only [String.length_append] at hl
    have hx' : x ≠ "" := beq_eq_false_iff_ne.mp hx
    have h1 : x.length ≠ 0 := fun h0 => hx' (string_length_zero x h0)
    have h3 : ("" : String).length = 0 := rfl
    omega

/-- **C9.** `getChapterContext` at index 0 yields the designated
"first chapter" sentinel; for a non-empty chapter list and `k > 0`, the
context is one digest line per chapter strictly before index `k`, in
original order, each of the form `title ++ ": " ++ first 200 characters of
content ++ "..."`, joined by blank lines. -/
theorem getChapterContext_digest (p : Project) (k : Nat) :
    (getChapterContext p 0).previousChapters = "This is the first chapter" ∧
    (0 < k → p.chapters ≠ [] →
      (getChapterContext p k).previousChapters =
        jsJoin "\n\n" ((p.chapters.take k).map chapterDigestLine)) := by
  constructor
  · simp [getChapterContext, jsJoin]
  · intro hk hne
    obtain ⟨c0, rest, hc⟩ : ∃ c0 rest, p.chapters = c0 :: rest := by
      cases hch : p.chapters with
      | nil => exact absurd hch hne
      | cons a t => exact ⟨a, t, rfl⟩
    obtain ⟨k', rfl⟩ : ∃ k', k = k' + 1 := ⟨k - 1, by omega⟩
    have hj : (jsJoin "\n\n" ((p.chapters.take (k' + 1)).map chapterDigestLine)
        == "") = false := by
      rw [hc]
      simp only [List.take_succ_cons, List.map_cons]
      exact jsJoin_cons_ne_empty _ _ _ (chapterDigestLine_ne_empty c0)
    simp only [getChapterContext, hj, Bool.false_eq_true, if_false]

/-- Witness for C9: one prior chapter, index 1. -/
theorem getChapterContext_digest_witness :
    (getChapterContext
        { concept := "c", tableOfContents := "t",
          chapters := [{ title := "Intro", content := "Once upon a time",
                         generatedAt := 0, wordCount := 4 }],
          metadata := { title := "", outlineJsonChapters := none } } 0).previousChapters =
      "This is the first chapter" ∧
    (0 < 1 → ([({ title := "Intro", content := "Once upon a time",
                  generatedAt := 0, wordCount := 4 } : Chapter)] : List Chapter) ≠ [] →
      (getChapterContext
        { concept := "c", tableOfContents := "t",
          chapters := [{ title := "Intro", content := "Once upon a time",
                         generatedAt := 0, wordCount := 4 }],
          metadata := { title := "", outlineJsonChapters := none } } 1).previousChapters =
        jsJoin "\n\n" (([({ title := "Intro", content := "Once upon a time",
                            generatedAt := 0, wordCount := 4 } : Chapter)].take 1).map
          chapterDigestLine)) :=
  getChapterContext_digest
    { concept := "c", tableOfContents := "t",
      chapters := [{ title := "Intro", content := "Once upon a time",
                     generatedAt := 0, wordCount := 4 }],
      metadata := { title := "", outlineJsonChapters := none } } 1

/-! ## `script.js`: the chapter loop (`generateChapters`)

The dispatcher call `apiManager.generateChapter(...)` is abstracted as an
oracle `gen : Nat → GenOutcome` indexed by the chapter index: `ok content`
is a successful (retried as needed) generation, `fail streamed msg` a
thrown error whose streaming callback last echoed `streamed` into
`chapters[i].content` (`none` when no token arrived before the failure).
`clock i` abstracts `new Date().toISOString()` for the step at index `i`.
The advisory UI calls and the inter-chapter sleep are dropped; the error
alert of the `catch` block, the snapshots handed to
`storageManager.saveProject`, and the indices at which the dispatcher was
invoked are recorded in the result. -/

inductive GenOutcome where
  | ok (content : String)
  | fail (streamed : Option String) (msg : String)
deriving DecidableEq

/-- `arr[i] = f(arr[i])` on an index that exists; out-of-range writes do not
occur in the modelled loop (it walks indices in ascending order). -/
def listModify (l : List α) (i : Nat) (f : α → α) : List α :=
  match l.get? i with
  | some a => l.set i (f a)
  | none => l

/-- `saveProject` persists only when the project has any content. -/
def saveProjectCond (p : Project) : Bool :=
  !(p.concept == "") || !(p.tableOfContents == "") || decide (0 < p.chapters.length)

/-- The observable outcome of the loop body of `generateChapters`. -/
structure LoopRes where
  project : Project
  cursor : Nat
  saved : List Project
  genLog : List Nat
  alert : Option String
deriving DecidableEq

/-- The `for (let i = startIndex; i < chapters.length; i++)` loop.  `fuel`
bounds the iterations (instantiated with `titles.length`, which the loop
never exceeds); `cursor` carries `generationState.chapterIndex`. -/
def gcLoop (gen : Nat → GenOutcome) (clock : Nat → Nat) (titles : List String)
    (startIndex : Nat) (auto : Bool) :
    Nat → Nat → Project → Nat → List Project → List Nat → LoopRes
  | 0, _i, p, cursor, saved, log => ⟨p, cursor, saved, log, none⟩
  | fuel + 1, i, p, cursor, saved, log =>
    if h : i < titles.length then
      let title := titles.get ⟨i, h⟩
      let p1 :=
        if i < p.chapters.length then p
        else { p with chapters := p.chapters ++
          [{ title := title, content := "", generatedAt := clock i,
             wordCount := 0 }] }
      let log1 := log ++ [i]
      match gen i with
      | .fail streamed msg =>
        let p2 :=
          match streamed with
          | some buf =>
            { p1 with chapters :=
                listModify p1.chapters i (fun ch => { ch with content := buf }) }
          | none => p1
        ⟨p2, i, saved, log1, some ("Failed to generate chapters: " ++ msg)⟩
      | .ok content =>
        let f := fun ch : Chapter =>
          { ch with
            content := content
            generatedAt := clock i
            wordCount := countWords content }
        let p2 := { p1 with chapters := listModify p1.chapters i f }
        let saved1 := if saveProjectCond p2 then saved ++ [p2] else saved
        if !auto && i == startIndex then ⟨p2, i, saved1, log1, none⟩
        else gcLoop gen clock titles startIndex auto fuel (i + 1) p2 i saved1 log1
    else ⟨p, cursor, saved, log, none⟩

/-- The observable outcome of one `generateChapters` invocation. -/
structure GenChaptersResult where
  project : Project
  state : GenerationState
  saved : List Project
  genLog : List Nat
  alert : Option String
deriving DecidableEq

/-- `BookGenerator.generateChapters`: the reentrancy/outline guard, the
auto-generate flag read from the checkbox (`autoChecked`), the `titles`
resolution, the empty-outline error, the loop, and the `finally` clearing
of `isGenerating`. -/
def generateChapters (gen : Nat → GenOutcome) (clock : Nat → Nat)
    (autoChecked : Bool) (p : Project) (st : GenerationState) :
    GenChaptersResult :=
  if st.isGenerating || p.tableOfContents == "" then
    ⟨p, st, [], [], none⟩
  else
    let st1 := { st with isGenerating := true, autoGenerate := autoChecked }
    let titles := parseTableOfContents p
    if titles.length == 0 then
      ⟨p, { st1 with isGenerating := false }, [], [],
        some "Failed to generate chapters: No chapters found in table of contents"⟩
    else
      let r := gcLoop gen clock titles st1.chapterIndex st1.autoGenerate
        titles.length st1.chapterIndex p st1.chapterIndex [] []
      ⟨r.project, { st1 with isGenerating := false, chapterIndex := r.cursor },
        r.saved, r.genLog, r.alert⟩

theorem listModify_get?_ne (l : List α) (i j : Nat) (f : α → α) (h : j ≠ i) :
    (listModify l i f).get? j = l.get? j := by
  unfold listModify
  cases hg : l.get? i with
  | none => rfl
  | some a => exact List.get?_set_ne (f a) l (fun hEq => h hEq.symm)

theorem listModify_get?_self (l : List α) (i : Nat) (f : α → α) (a : α)
    (h : l.get? i = some a) :
    (listModify l i f).get? i = some (f a) := by
  unfold listModify
  rw [h]
  exact List.get?_set_eq_of_lt (f a) (by
    by_contra hlt
    rw [List.get?_eq_none.mpr (by omega)] at h
    exact Option.noConfusion h)

theorem listModify_append_singleton (l : List α) (x : α) (f : α → α) :
    listModify (l ++ [x]) l.length f = l ++ [f x] := by
  unfold listModify
  rw [List.get?_concat_length]
  induction l with
  | nil => rfl
  | cons c t ih => simp [List.set, ih]

/-- A three-chapter outline, used by the concrete scenarios below. -/
def tocThree : String :=
  "Chapter 1: Alpha - a\nChapter 2: Beta - b\nChapter 3: Gamma - c"

/-- A fresh project with outline ready and no chapters generated. -/
def freshProject : Project :=
  { concept := "concept", tableOfContents := tocThree, chapters := [],
    metadata := { title := "", outlineJsonChapters := none } }

/-- A constant clock (timestamps are irrelevant to the claims). -/
def zeroClock : Nat → Nat := fun _ => 0

/-- First manual (`autoGenerate=false`) invocation on the fresh project. -/
def c4Run1 : GenChaptersResult :=
  generateChapters (fun _ => .ok "first") zeroClock false freshProject
    initialGenerationState

/-- Second manual invocation, continuing from the first one's state. -/
def c4Run2 : GenChaptersResult :=
  generateChapters (fun _ => .ok "second") zeroClock false c4Run1.project
    c4Run1.state

/-- **C4, counterexample.**  The claim says each manual invocation advances
the cursor by exactly one, so successive invocations generate successive
indices.  In fact the loop breaks with `chapterIndex === startIndex`: after
the first manual call on a fresh three-chapter project the cursor is still
0 (not 1), and the second manual call generates chapter index 0 *again*,
overwriting it — the project still has exactly one chapter. -/
theorem generateChapters_manual_cursor_stuck :
    c4Run1.genLog = [0] ∧
    c4Run1.state.chapterIndex = 0 ∧
    ¬ c4Run1.state.chapterIndex = 1 ∧
    c4Run2.genLog = [0] ∧
    c4Run2.project.chapters.map (fun c => c.content) = ["second"] := by
  decide

/-- **C4 (amended).**  `generateChapters` with `autoGenerate=false` generates
exactly one chapter per call — the one at the current cursor index — but
leaves the cursor at that same index (it is *not* advanced by one), so a
subsequent manual invocation re-generates the same index.  All other state
is untouched: entries at other indices, concept, outline and metadata are
unchanged, no error is raised, and the generated entry holds the dispatched
content. -/
theorem generateChapters_manual_one (p : Project) (st : GenerationState)
    (gen : Nat → GenOutcome) (clock : Nat → Nat) (c : String)
    (hgen0 : st.isGenerating = false)
    (htoc : (p.tableOfContents == "") = false)
    (hidx : st.chapterIndex < (parseTableOfContents p).length)
    (hle : st.chapterIndex ≤ p.chapters.length)
    (hok : gen st.chapterIndex = .ok c) :
    (generateChapters gen clock false p st).genLog = [st.chapterIndex] ∧
    (generateChapters gen clock false p st).state.chapterIndex =
      st.chapterIndex ∧
    (generateChapters gen clock false p st).state.isGenerating = false ∧
    (generateChapters gen clock false p st).alert = none ∧
    (generateChapters gen clock false p st).project.concept = p.concept ∧
    (generateChapters gen clock false p st).project.tableOfContents =
      p.tableOfContents ∧
    (generateChapters gen clock false p st).project.metadata = p.metadata ∧
    (∀ j, j ≠ st.chapterIndex →
      (generateChapters gen clock false p st).project.chapters.get? j =
        p.chapters.get? j) ∧
    ((generateChapters gen clock false p st).project.chapters.get?
        st.chapterIndex).map (fun ch => ch.content) = some c := by
  have hL : ∃ l, (parseTableOfContents p).length = l + 1 :=
    ⟨(parseTableOfContents p).length - 1, by omega⟩
  obtain ⟨l, hl⟩ := hL
  have hguard : (st.isGenerating || (p.tableOfContents == "")) = false := by
    rw [hgen0, htoc]; rfl
  have hlen0 : ((parseTableOfContents p).length == 0) = false := by
    simp only [beq_eq_false_iff_ne, ne_eq]
    omega
  unfold generateChapters
  rw [hguard]
  simp only [Bool.false_eq_true, if_false, hlen0]
  rw [hl]
  rw [gcLoop]
  rw [dif_pos (by omega : st.chapterIndex < (parseTableOfContents p).length)]
  rw [hok]
  simp only [Bool.not_false, beq_self_eq_true, Bool.and_self, if_pos,
    List.nil_append]
  refine ⟨trivial, trivial, trivial, trivial, ?_, ?_, ?_, ?_, ?_⟩
  · split <;> rfl
  · split <;> rfl
  · split <;> rfl
  · intro j hj
    rw [listModify_get?_ne _ _ _ _ hj]
    by_cases hlt : st.chapterIndex < p.chapters.length
    · rw [if_pos hlt]
    · rw [if_neg hlt]
      by_cases hjlt : j < p.chapters.length
      · exact List.get?_append hjlt
      · have hEq : st.chapterIndex = p.chapters.length := by omega
        rw [List.get?_eq_none.mpr (by simp only [List.length_append,
            List.length_cons, List.length_nil]; omega),
          List.get?_eq_none.mpr (by omega)]
  · by_cases hlt : st.chapterIndex < p.chapters.length
    · rw [if_pos hlt]
      rw [listModify_get?_self _ _ _ _ (List.get?_eq_get hlt)]
      rfl
    · rw [if_neg hlt]
      rw [listModify_get?_self _ _ _ _ (List.get?_eq_get (by
        simp only [List.length_append, List.length_cons, List.length_nil]
        omega))]
      rfl

/-- Witness for the amended C4 on the fresh three-chapter project. -/
theorem generateChapters_manual_one_witness :
    (generateChapters (fun _ => .ok "first") zeroClock false freshProject
        initialGenerationState).genLog = [initialGenerationState.chapterIndex] ∧
    (generateChapters (fun _ => .ok "first") zeroClock false freshProject
        initialGenerationState).state.chapterIndex =
      initialGenerationState.chapterIndex ∧
    (generateChapters (fun _ => .ok "first") zeroClock false freshProject
        initialGenerationState).state.isGenerating = false ∧
    (generateChapters (fun _ => .ok "first") zeroClock false freshProject
        initialGenerationState).alert = none ∧
    (generateChapters (fun _ => .ok "first") zeroClock false freshProject
        initialGenerationState).project.concept = freshProject.concept ∧
    (generateChapters (fun _ => .ok "first") zeroClock false freshProject
        initialGenerationState).project.tableOfContents =
      freshProject.tableOfContents ∧
    (generateChapters (fun _ => .ok "first") zeroClock false freshProject
        initialGenerationState).project.metadata = freshProject.metadata ∧
    (∀ j, j ≠ initialGenerationState.chapterIndex →
      (generateChapters (fun _ => .ok "first") zeroClock false freshProject
          initialGenerationState).project.chapters.get? j =
        freshProject.chapters.get? j) ∧
    ((generateChapters (fun _ => .ok "first") zeroClock false freshProject
        initialGenerationState).project.chapters.get?
          initialGenerationState.chapterIndex).map (fun ch => ch.content) =
      some "first" :=
  generateChapters_manual_one freshProject initialGenerationState
    (fun _ => .ok "first") zeroClock "first" rfl (by decide) (by decide)
    (by decide) rfl

theorem listModify_append_singleton' (l : List α) (x : α) (i : Nat)
    (f : α → α) (h : i = l.length) :
    listModify (l ++ [x]) i f = l ++ [f x] := by
  subst h
  exact listModify_append_singleton l x f

/-- An auto-generate run on the fresh project whose dispatcher call fails
immediately at chapter index 0 (no token streamed). -/
def c2Run : GenChaptersResult :=
  generateChapters (fun _ => .fail none "boom") zeroClock true freshProject
    initialGenerationState

/-- **C2, counterexample.**  The claim says a dispatcher failure at a
chapter index leaves the chapters array exactly as it was before the
failing call — no placeholder entry.  In fact `generateChapters` creates
the placeholder `{ title, content: '', … }` at the failing index *before*
invoking the dispatcher, so after a failure at index 0 on a project with no
chapters the array now holds that placeholder; the error is reported via
the alert channel and the function returns normally. -/
theorem generateChapters_fail_leaves_placeholder :
    freshProject.chapters = [] ∧
    c2Run.project.chapters =
      [{ title := "Alpha", content := "", generatedAt := 0, wordCount := 0 }] ∧
    ¬ c2Run.project.chapters = freshProject.chapters ∧
    c2Run.alert = some "Failed to generate chapters: boom" ∧
    c2Run.state.chapterIndex = 0 ∧
    c2Run.saved = [] := by
  decide

/-- **C2 (amended).**  When the dispatcher call fails at the first attempted
index (the cursor position, here the next fresh index), `generateChapters`
leaves concept, outline, metadata and every *other* chapter entry exactly
as they were, performs no persistence, does not advance the cursor past
the failed index, and reports the failure through the alert channel while
returning normally — but the chapters array now contains a placeholder
entry at the failing index whose content is whatever the streaming
callback last echoed (empty when nothing streamed). -/
theorem generateChapters_fail_first (p : Project) (st : GenerationState)
    (gen : Nat → GenOutcome) (clock : Nat → Nat) (streamed : Option String)
    (msg : String)
    (hgen0 : st.isGenerating = false)
    (htoc : (p.tableOfContents == "") = false)
    (hidx : st.chapterIndex < (parseTableOfContents p).length)
    (hEq : st.chapterIndex = p.chapters.length)
    (hfail : gen st.chapterIndex = .fail streamed msg) :
    (generateChapters gen clock st.autoGenerate p st).project.concept =
      p.concept ∧
    (generateChapters gen clock st.autoGenerate p st).project.tableOfContents =
      p.tableOfContents ∧
    (generateChapters gen clock st.autoGenerate p st).project.metadata =
      p.metadata ∧
    (generateChapters gen clock st.autoGenerate p st).state.chapterIndex =
      st.chapterIndex ∧
    (generateChapters gen clock st.autoGenerate p st).state.isGenerating =
      false ∧
    (generateChapters gen clock st.autoGenerate p st).saved = [] ∧
    (generateChapters gen clock st.autoGenerate p st).genLog =
      [st.chapterIndex] ∧
    (generateChapters gen clock st.autoGenerate p st).alert =
      some ("Failed to generate chapters: " ++ msg) ∧
    (generateChapters gen clock st.autoGenerate p st).project.chapters =
      p.chapters ++
        [{ title := (parseTableOfContents p).get ⟨st.chapterIndex, hidx⟩,
           content := streamed.getD "",
           generatedAt := clock st.chapterIndex, wordCount := 0 }] := by
  have hL : ∃ l, (parseTableOfContents p).length = l + 1 :=
    ⟨(parseTableOfContents p).length - 1, by omega⟩
  obtain ⟨l, hl⟩ := hL
  have hguard : (st.isGenerating || (p.tableOfContents == "")) = false := by
    rw [hgen0, htoc]; rfl
  have hlen0 : ((parseTableOfContents p).length == 0) = false := by
    simp only [beq_eq_false_iff_ne, ne_eq]
    omega
  have hlt : ¬ st.chapterIndex < p.chapters.length := by omega
  unfold generateChapters
  rw [hguard]
  simp only [Bool.false_eq_true, if_false, hlen0]
  generalize hT : (parseTableOfContents p).get ⟨st.chapterIndex, hidx⟩ = T
  rw [hl]
  rw [gcLoop]
  rw [dif_pos (by omega : st.chapterIndex < (parseTableOfContents p).length)]
  rw [hfail]
  simp only [List.nil_append, if_neg hlt]
  subst hT
  cases streamed with
  | none =>
    refine ⟨?_, ?_, ?_, ?_, ?_, ?_, ?_, ?_, ?_⟩ <;> first | rfl | trivial
  | some buf =>
    have h9 : listModify (p.chapters ++
        [{ title := (parseTableOfContents p).get ⟨st.chapterIndex, hidx⟩,
           content := "", generatedAt := clock st.chapterIndex,
           wordCount := 0 }]) st.chapterIndex
        (fun ch => { ch with content := buf }) =
      p.chapters ++
        [{ title := (parseTableOfContents p).get ⟨st.chapterIndex, hidx⟩,
           content := buf, generatedAt := clock st.chapterIndex,
           wordCount := 0 }] := by
      rw [listModify_append_singleton' _ _ _ _ hEq]
    refine ⟨?_, ?_, ?_, ?_, ?_, ?_, ?_, ?_, ?_⟩ <;>
      first | rfl | trivial | exact h9

/-- Witness for the amended C2: failure at the fresh index 0 with the
aggregate `"partial"` streamed before the error. -/
theorem generateChapters_fail_first_witness :
    (generateChapters (fun _ => .fail (some "partial") "boom") zeroClock
        initialGenerationState.autoGenerate freshProject
        initialGenerationState).project.chapters =
      freshProject.chapters ++
        [{ title := "Alpha", content := "partial", generatedAt := 0,
           wordCount := 0 }] :=
  (generateChapters_fail_first freshProject initialGenerationState
    (fun _ => .fail (some "partial") "boom") zeroClock (some "partial") "boom"
    rfl (by decide) (by decide) rfl rfl).2.2.2.2.2.2.2.2

/-- A four-chapter outline for the restart scenario. -/
def tocFour : String :=
  "Chapter 1: A - a\nChapter 2: B - b\nChapter 3: C - c\nChapter 4: D - d"

/-- The project of the restart scenario before any chapter exists. -/
def c3Project0 : Project :=
  { concept := "con", tableOfContents := tocFour, chapters := [],
    metadata := { title := "", outlineJsonChapters := none } }

/-- First session: auto-generate all four chapters successfully. -/
def c3FirstRun : GenChaptersResult :=
  generateChapters (fun _ => .ok "v1") zeroClock true c3Project0
    initialGenerationState

/-- The project rehydrated after the restart: the last snapshot handed to
`storageManager.saveProject` (the persistence that followed chapter
index 3; `saveProject`/`getLastProject` round-trip these fields losslessly
through JSON). -/
def c3Rehydrated : Project :=
  (c3FirstRun.saved.getLast?).getD c3Project0

/-- Second session after the restart: `generationState` is rebuilt by the
constructor, so the run starts from `initialGenerationState`. -/
def c3Resumed : GenChaptersResult :=
  generateChapters (fun _ => .ok "v2") zeroClock true c3Rehydrated
    initialGenerationState

/-- **C3, counterexample.**  The claim says that after a restart following
the successful persistence of chapter index 3, `generateChapters` resumes
at chapter index 4 and never re-generates chapters 0–3.  In fact the cursor
lives only in `generationState`, which is not part of the persisted project
and is reset to 0 by the constructor: the resumed run generates indices
0, 1, 2, 3 again (its first generated index is 0, not 4), overwriting all
four previously generated chapters. -/
theorem generateChapters_restart_regenerates :
    c3FirstRun.genLog = [0, 1, 2, 3] ∧
    c3FirstRun.saved.length = 4 ∧
    c3Rehydrated.chapters.map (fun c => c.content) = ["v1", "v1", "v1", "v1"] ∧
    c3Resumed.genLog = [0, 1, 2, 3] ∧
    c3Resumed.genLog.head? = some 0 ∧
    ¬ c3Resumed.genLog.head? = some 4 ∧
    c3Resumed.project.chapters.map (fun c => c.content) =
      ["v2", "v2", "v2", "v2"] := by
  decide

theorem gcLoop_log_mono (gen : Nat → GenOutcome) (clock : Nat → Nat)
    (titles : List String) (startIndex : Nat) (auto : Bool) :
    ∀ fuel i p cursor saved log, ∃ ext,
      (gcLoop gen clock titles startIndex auto fuel i p cursor saved
          log).genLog = log ++ ext := by
  intro fuel
  induction fuel with
  | zero => intro i p cursor saved log; exact ⟨[], by simp [gcLoop]⟩
  | succ f ih =>
    intro i p cursor saved log
    rw [gcLoop]
    by_cases h : i < titles.length
    · rw [dif_pos h]
      cases hg : gen i with
      | fail streamed msg => exact ⟨[i], rfl⟩
      | ok content =>
        dsimp only
        by_cases hbrk : (!auto && (i == startIndex)) = true
        · rw [if_pos hbrk]
          exact ⟨[i], rfl⟩
        · rw [if_neg (by simpa using hbrk)]
          have hcont : ∀ (q : Project) (saved' : List Project), ∃ ext,
              (gcLoop gen clock titles startIndex auto f (i + 1) q i saved'
                  (log ++ [i])).genLog = log ++ ext := by
            intro q saved'
            obtain ⟨ext, hext⟩ := ih (i + 1) q i saved' (log ++ [i])
            exact ⟨[i] ++ ext, by rw [hext, List.append_assoc]⟩
          exact hcont _ _
    · rw [dif_neg h]
      exact ⟨[], by simp⟩

/-- **C3 (amended).**  The cursor does *not* survive persistence and reload:
`saveProject` persists only `currentProject` (which has no cursor field),
and the constructor rebuilds `generationState` with `chapterIndex = 0`.
Consequently, for every rehydrated project with a non-empty chapter-title
list, invoking `generateChapters` on the restart state attempts chapter
index 0 first — it re-generates from the beginning instead of resuming
past the persisted chapters. -/
theorem generateChapters_after_restart_starts_at_zero (p : Project)
    (gen : Nat → GenOutcome) (clock : Nat → Nat) (autoChecked : Bool)
    (htoc : (p.tableOfContents == "") = false)
    (hlen : 0 < (parseTableOfContents p).length) :
    (generateChapters gen clock autoChecked p
        initialGenerationState).genLog.head? = some 0 := by
  have hL : ∃ l, (parseTableOfContents p).length = l + 1 :=
    ⟨(parseTableOfContents p).length - 1, by omega⟩
  obtain ⟨l, hl⟩ := hL
  have hguard : (initialGenerationState.isGenerating ||
      (p.tableOfContents == "")) = false := by
    rw [htoc]; rfl
  have hlen0 : ((parseTableOfContents p).length == 0) = false := by
    simp only [beq_eq_false_iff_ne, ne_eq]
    omega
  unfold generateChapters
  rw [hguard]
  simp only [Bool.false_eq_true, if_false, hlen0]
  simp only [show initialGenerationState.chapterIndex = 0 from rfl,
    show initialGenerationState.isGenerating = false from rfl,
    show initialGenerationState.autoGenerate = false from rfl]
  rw [hl]
  rw [gcLoop]
  rw [dif_pos hlen]
  cases hg : gen 0 with
  | fail streamed msg => rfl
  | ok content =>
    dsimp only
    by_cases hbrk : (!autoChecked && ((0 : Nat) == 0)) = true
    · rw [if_pos hbrk]
      rfl
    · rw [if_neg (by simpa using hbrk)]
      have hcont : ∀ (q : Project) (saved' : List Project),
          ((gcLoop gen clock (parseTableOfContents p) 0 autoChecked l
              (0 + 1) q 0 saved' ([] ++ [0])).genLog).head? = some 0 := by
        intro q saved'
        obtain ⟨ext, hext⟩ := gcLoop_log_mono gen clock (parseTableOfContents p)
          0 autoChecked l (0 + 1) q 0 saved' ([] ++ [0])
        rw [hext]
        rfl
      exact hcont _ _

/-- Witness for the amended C3 on the rehydrated four-chapter project. -/
theorem generateChapters_after_restart_starts_at_zero_witness :
    (generateChapters (fun _ => .ok "v2") zeroClock true c3Rehydrated
        initialGenerationState).genLog.head? = some 0 :=
  generateChapters_after_restart_starts_at_zero c3Rehydrated
    (fun _ => .ok "v2") zeroClock true (by decide) (by decide)
